import Mathlib

/-!
Verification of the octocrab service-middleware core: the retry policy
(src/service/middleware/retry.rs), the concurrent map abstraction
(src/internal/concurrent.rs) and the in-memory response cache
(src/service/middleware/cache/mem.rs), shallowly embedded in Lean.

Mutable `ConcurrentMap` handles are modelled by a heap (a list of map
states) addressed by natural-number references, so that aliasing and the
deep-copy semantics of `clone()` are observable.  Machine integers are
modelled as `Nat` with explicit wraparound where the source can overflow.
-/

set_option autoImplicit false

namespace Octocrab

/-- An HTTP response as the retry middleware sees it: a status code plus an
opaque body payload (the middleware never inspects the body). -/
structure Response (β : Type) where
  status : Nat
  body : β
deriving DecidableEq

/-- Rust usize subtraction with release-mode (wrapping) semantics:
a - b modulo 2^64, defined for b ≤ 2^64. -/
def usizeSub (a b : Nat) : Nat := (a + (2 ^ 64 - b % 2 ^ 64)) % 2 ^ 64

/-- Whether the usize subtraction a - b underflows (panics in debug builds,
wraps in release builds). -/
def usizeSubUnderflows (a b : Nat) : Prop := a < b

/-- StatusCode::is_server_error from the http crate: status in 500..=599. -/
def is_server_error (s : Nat) : Bool := 500 ≤ s && s < 600

/-- RetryConfig from src/service/middleware/retry.rs: no retries, or a
remaining-attempts budget. -/
inductive RetryConfig where
  | none
  | simple (count : Nat)
deriving DecidableEq

/-- The delay (in milliseconds) computed inside RetryConfig::retry after the
budget has been decremented to count: attempt = 3 - count (a usize
subtraction, hardcoded base 3), delay = 2^(attempt.min 6) * 100. -/
def retryDelayMs (count : Nat) : Nat := 2 ^ (Nat.min (usizeSub 3 count) 6) * 100

/-- RetryConfig::retry from src/service/middleware/retry.rs.  Takes the
previous attempt's outcome (Ok response, or a transport error modelled as an
opaque Nat) and returns the updated config together with the requested delay
in milliseconds (None means: do not retry, surface the outcome). -/
def RetryConfig.retry {β : Type} (cfg : RetryConfig) (result : Except Nat (Response β)) :
    RetryConfig × Option Nat :=
  match cfg with
  | .none => (.none, Option.none)
  | .simple count =>
    match result with
    | .ok response =>
      if is_server_error response.status || response.status == 429 then
        if 0 < count then
          (.simple (count - 1), some (retryDelayMs (count - 1)))
        else
          (.simple count, Option.none)
      else
        (.simple count, Option.none)
    | .error _ =>
      if 0 < count then
        (.simple (count - 1), some (retryDelayMs (count - 1)))
      else
        (.simple count, Option.none)

/-- Whether RetryConfig::retry treats an outcome as retryable: a response
whose status is a server error (5xx) or 429, or any transport error. -/
def retryableOutcome {β : Type} : Except Nat (Response β) → Bool
  | .ok response => is_server_error response.status || response.status == 429
  | .error _ => true

/-- Modelled from the spec: OctoBody, the request body type (src/body.rs is
not among the analysed sources).  Per the spec's request-replay contract, a
buffered body can be duplicated into an equivalent body, while a streaming
one-shot body cannot be duplicated. -/
inductive OctoBody where
  | buffered (data : List Nat)
  | streaming
deriving DecidableEq

/-- Modelled from the spec: OctoBody::try_clone duplicates a buffered body
and fails (returns none) on a streaming one-shot body. -/
def OctoBody.try_clone : OctoBody → Option OctoBody
  | .buffered data => some (.buffered data)
  | .streaming => Option.none

/-- An http::Request as the retry middleware sees it: method, URI, version,
headers (an ordered list of name-value pairs, as iterated by HeaderMap) and
an OctoBody. -/
structure Request where
  uri : String
  method : String
  version : Nat
  headers : List (String × String)
  body : OctoBody
deriving DecidableEq

/-- RetryConfig::clone_request from src/service/middleware/retry.rs: None
for RetryConfig::None; otherwise duplicate the body via try_clone (None on
failure) and rebuild a request from the original's uri, method, version and
headers. -/
def RetryConfig.clone_request (cfg : RetryConfig) (req : Request) : Option Request :=
  match cfg with
  | .none => Option.none
  | _ =>
    match req.body.try_clone with
    | Option.none => Option.none
    | some body =>
      some { uri := req.uri, method := req.method, version := req.version,
             headers := req.headers, body := body }

/-- Modelled from the spec: the generic retry pipeline driving the policy
(the tower driver is outside the analysed sources).  out is the initial
attempt's outcome and rest scripts the outcomes of subsequent attempts.
While the policy returns a delay and a scripted outcome remains, the driver
suspends for the delay and re-submits; otherwise the last outcome is
surfaced unchanged.  Returns (total attempts, delays in order, final
outcome). -/
def runScript {β : Type} (cfg : RetryConfig) (out : Except Nat (Response β)) :
    List (Except Nat (Response β)) → Nat × List Nat × Except Nat (Response β)
  | [] => (1, [], out)
  | o :: rest =>
    match RetryConfig.retry cfg out with
    | (cfg', some d) =>
      let r := runScript cfg' o rest
      (r.1 + 1, d :: r.2.1, r.2.2)
    | (_, Option.none) => (1, [], out)

/-- The state of one ConcurrentMap (src/internal/concurrent.rs): an
association list of key-value entries, keys unique by construction of the
operations. -/
abbrev ConcurrentMap (K V : Type) := List (K × V)

/-- ConcurrentMap::get: the value stored for a key, if any. -/
def ConcurrentMap.get {K V : Type} [DecidableEq K] : ConcurrentMap K V → K → Option V
  | [], _ => Option.none
  | (k', v) :: m, k => if k' = k then some v else ConcurrentMap.get m k

/-- ConcurrentMap::insert: replaces the value for an existing key, otherwise
adds a new entry (hash-map insert semantics). -/
def ConcurrentMap.insert {K V : Type} [DecidableEq K] : ConcurrentMap K V → K → V → ConcurrentMap K V
  | [], k, v => [(k, v)]
  | (k', v') :: m, k, v =>
    if k' = k then (k, v) :: m else (k', v') :: ConcurrentMap.insert m k v

/-- ConcurrentMap::remove: removes the entry for a key, returning the stored
value (if any) together with the remaining map. -/
def ConcurrentMap.remove {K V : Type} [DecidableEq K] : ConcurrentMap K V → K → Option V × ConcurrentMap K V
  | [], _ => (Option.none, [])
  | (k', v') :: m, k =>
    if k' = k then (some v', m)
    else
      let r := ConcurrentMap.remove m k
      (r.1, (k', v') :: r.2)

/-- ConcurrentMap::iter: a point-in-time snapshot of all entries. -/
def ConcurrentMap.iter {K V : Type} (m : ConcurrentMap K V) : List (K × V) := m

/-- ConcurrentMap::len: the number of entries. -/
def ConcurrentMap.len {K V : Type} (m : ConcurrentMap K V) : Nat := m.length

/-- ConcurrentMap::is_empty. -/
def ConcurrentMap.is_empty {K V : Type} (m : ConcurrentMap K V) : Bool := m.isEmpty

/-- ConcurrentMap::contains_key. -/
def ConcurrentMap.contains_key {K V : Type} [DecidableEq K] (m : ConcurrentMap K V) (k : K) : Bool :=
  (ConcurrentMap.get m k).isSome

/-- The body of the native Clone impl for ConcurrentMap: build a fresh map
by iterating the entries and inserting each into it. -/
def ConcurrentMap.copy {K V : Type} [DecidableEq K] (m : ConcurrentMap K V) : ConcurrentMap K V :=
  (ConcurrentMap.iter m).foldl (fun acc p => ConcurrentMap.insert acc p.1 p.2) []

/-- A heap of ConcurrentMap states; a live ConcurrentMap handle is an index
into it.  Distinct indices are disjoint map objects. -/
abbrev Heap (K V : Type) := List (ConcurrentMap K V)

/-- The map state a handle refers to (empty for a dangling handle, which
the operations never create). -/
def Heap.read {K V : Type} (h : Heap K V) (r : Nat) : ConcurrentMap K V := h.getD r []

/-- Overwrite the map state a handle refers to. -/
def Heap.write {K V : Type} (h : Heap K V) (r : Nat) (m : ConcurrentMap K V) : Heap K V :=
  List.set h r m

/-- Allocate a fresh map object, returning its handle. -/
def Heap.alloc {K V : Type} (h : Heap K V) (m : ConcurrentMap K V) : Nat × Heap K V :=
  (h.length, h ++ [m])

/-- ConcurrentMap::clone (native impl): allocate a fresh map object holding
a copy of the entries, built by iterate-and-insert. -/
def Heap.cloneAt {K V : Type} [DecidableEq K] (h : Heap K V) (r : Nat) : Nat × Heap K V :=
  Heap.alloc h (ConcurrentMap.copy (Heap.read h r))

/-- ConcurrentMap::get through a handle. -/
def Heap.getAt {K V : Type} [DecidableEq K] (h : Heap K V) (r : Nat) (k : K) : Option V :=
  ConcurrentMap.get (Heap.read h r) k

/-- ConcurrentMap::insert through a handle. -/
def Heap.insertAt {K V : Type} [DecidableEq K] (h : Heap K V) (r : Nat) (k : K) (v : V) : Heap K V :=
  Heap.write h r (ConcurrentMap.insert (Heap.read h r) k v)

/-- ConcurrentMap::remove through a handle (the updated heap). -/
def Heap.removeAt {K V : Type} [DecidableEq K] (h : Heap K V) (r : Nat) (k : K) : Heap K V :=
  Heap.write h r (ConcurrentMap.remove (Heap.read h r) k).2

/-- ConcurrentMap::clear through a handle. -/
def Heap.clearAt {K V : Type} (h : Heap K V) (r : Nat) : Heap K V :=
  Heap.write h r []

/-- ConcurrentMap::len through a handle. -/
def Heap.lenAt {K V : Type} (h : Heap K V) (r : Nat) : Nat :=
  ConcurrentMap.len (Heap.read h r)

/-- ConcurrentMap::iter through a handle. -/
def Heap.iterAt {K V : Type} (h : Heap K V) (r : Nat) : List (K × V) :=
  ConcurrentMap.iter (Heap.read h r)

/-- Request URIs, modelled as strings. -/
abbrev Uri := String

/-- Cache validator keys (opaque, e.g. an ETag), modelled as strings. -/
abbrev CacheKey := String

/-- CachedResponse from the cache middleware: captured headers plus the
accumulated body bytes. -/
structure CachedResponse where
  headers : List (String × String)
  body : List Nat
deriving DecidableEq

/-- The mutable state behind all live ConcurrentMap handles used by the
cache: one heap of Uri-to-CacheKey maps and one of Uri-to-CachedResponse
maps. -/
structure CacheState where
  keyHeap : Heap Uri CacheKey
  respHeap : Heap Uri CachedResponse
deriving DecidableEq

/-- InMemoryCache from src/service/middleware/cache/mem.rs: handles to its
keys and responses maps. -/
structure InMemoryCache where
  keys : Nat
  responses : Nat
deriving DecidableEq

/-- InMemoryWriter from src/service/middleware/cache/mem.rs: handles to the
maps it will commit into on drop, plus the uri, validator key, and the
in-progress response (headers captured at open time, body accumulated so
far). -/
structure InMemoryWriter where
  keys : Nat
  responses : Nat
  uri : Uri
  key : CacheKey
  response : CachedResponse
deriving DecidableEq

/-- InMemoryCache::new: two fresh empty maps. -/
def InMemoryCache.new (s : CacheState) : InMemoryCache × CacheState :=
  let pk := Heap.alloc s.keyHeap []
  let pr := Heap.alloc s.respHeap []
  (⟨pk.1, pr.1⟩, ⟨pk.2, pr.2⟩)

/-- InMemoryCache::try_hit: look up the validator key for a uri. -/
def InMemoryCache.try_hit (c : InMemoryCache) (s : CacheState) (uri : Uri) : Option CacheKey :=
  Heap.getAt s.keyHeap c.keys uri

/-- InMemoryCache::load: look up the cached response for a uri. -/
def InMemoryCache.load (c : InMemoryCache) (s : CacheState) (uri : Uri) : Option CachedResponse :=
  Heap.getAt s.respHeap c.responses uri

/-- InMemoryCache::writer: builds an InMemoryWriter holding
self.keys.clone() and self.responses.clone() (ConcurrentMap::clone, a deep
copy), the uri, the key, and an empty-bodied response carrying the given
headers. -/
def InMemoryCache.writer (c : InMemoryCache) (uri : Uri) (key : CacheKey)
    (headers : List (String × String)) (s : CacheState) : InMemoryWriter × CacheState :=
  let pk := Heap.cloneAt s.keyHeap c.keys
  let pr := Heap.cloneAt s.respHeap c.responses
  (⟨pk.1, pr.1, uri, key, ⟨headers, []⟩⟩, ⟨pk.2, pr.2⟩)

/-- InMemoryWriter::write_body: extends the in-progress response body with
the chunk; the source touches nothing but self.response.body, so the cache
state is returned unchanged. -/
def InMemoryWriter.write_body (w : InMemoryWriter) (s : CacheState) (data : List Nat) :
    InMemoryWriter × CacheState :=
  ({ w with response := { w.response with body := w.response.body ++ data } }, s)

/-- The Drop impl for InMemoryWriter: inserts the validator key and the
accumulated response into the maps the writer holds handles to. -/
def InMemoryWriter.drop (w : InMemoryWriter) (s : CacheState) : CacheState :=
  ⟨Heap.insertAt s.keyHeap w.keys w.uri w.key,
   Heap.insertAt s.respHeap w.responses w.uri w.response⟩

/-- Backoff delay exactly as the spec phrases it (stated from the spec's
words, for comparison with the source): for the k-th retry attempt
(k starting at 1), min(2^k, 2^6) * 100 milliseconds. -/
def specBackoffDelay (k : Nat) : Nat := Nat.min (2 ^ k) (2 ^ 6) * 100

end Octocrab

namespace Octocrab

/-! Helper lemmas (shared; none of these is a claim's theorem). -/

/-- Truncated-subtraction form of usizeSub when no underflow occurs. -/
lemma usizeSub_eq_sub {a b : Nat} (hb : b ≤ a) (ha : a < 2 ^ 64) : usizeSub a b = a - b := by
  unfold usizeSub
  have hblt : b < 2 ^ 64 := lt_of_le_of_lt hb ha
  rw [Nat.mod_eq_of_lt hblt]
  have h1 : a + (2 ^ 64 - b) = (a - b) + 2 ^ 64 := by omega
  rw [h1, Nat.add_mod_right, Nat.mod_eq_of_lt (by omega)]

/-- On a retryable outcome with budget left, retry decrements and requests
the computed delay. -/
lemma retry_simple_pos {β : Type} (n : Nat) (o : Except Nat (Response β))
    (hn : 0 < n) (hro : retryableOutcome o = true) :
    RetryConfig.retry (.simple n) o = (.simple (n - 1), some (retryDelayMs (n - 1))) := by
  cases o with
  | ok resp =>
    have hb : (is_server_error resp.status || resp.status == 429) = true := hro
    unfold RetryConfig.retry
    simp [hb, hn]
  | error e =>
    unfold RetryConfig.retry
    simp [hn]

/-- On a non-retryable outcome, or with no budget left, retry requests no
delay and leaves the budget unchanged. -/
lemma retry_simple_stop {β : Type} (n : Nat) (o : Except Nat (Response β))
    (h : ¬(retryableOutcome o = true ∧ 0 < n)) :
    RetryConfig.retry (.simple n) o = (.simple n, Option.none) := by
  cases o with
  | ok resp =>
    by_cases hb : (is_server_error resp.status || resp.status == 429) = true
    · have hn : ¬ 0 < n := fun hn' => h ⟨hb, hn'⟩
      unfold RetryConfig.retry
      simp [hb, hn]
    · unfold RetryConfig.retry
      simp [hb]
  | error e =>
    have hn : ¬ 0 < n := fun hn' => h ⟨rfl, hn'⟩
    unfold RetryConfig.retry
    simp [hn]

/-- When the policy requests no delay, the driver stops after the single
attempt and surfaces the outcome unchanged. -/
lemma runScript_stop {β : Type} (cfg : RetryConfig) (o : Except Nat (Response β))
    (rest : List (Except Nat (Response β)))
    (h : (RetryConfig.retry cfg o).2 = Option.none) :
    runScript cfg o rest = (1, [], o) := by
  cases rest with
  | nil => rfl
  | cons x t =>
    have hpair : RetryConfig.retry cfg o = ((RetryConfig.retry cfg o).1, Option.none) := by
      conv_lhs => rw [← Prod.mk.eta (p := RetryConfig.retry cfg o)]
      rw [h]
    simp only [runScript]
    rw [hpair]

end Octocrab

namespace Octocrab

/-- The observations the spec names for one map handle: get on every key,
len, and the iter snapshot all agree between two heap states. -/
def Heap.sameAt {K V : Type} [DecidableEq K] (h1 h2 : Heap K V) (r : Nat) : Prop :=
  (∀ k : K, Heap.getAt h1 r k = Heap.getAt h2 r k)
  ∧ Heap.lenAt h1 r = Heap.lenAt h2 r
  ∧ Heap.iterAt h1 r = Heap.iterAt h2 r

/-- Frame property of the heap: writing one map object does not change what
any other handle refers to. -/
lemma Heap.read_write_ne {K V : Type} :
    ∀ (h : Heap K V) (a b : Nat) (m : ConcurrentMap K V), a ≠ b →
      Heap.read (Heap.write h a m) b = Heap.read h b
  | [], _, _, _, _ => rfl
  | _ :: _, 0, 0, _, hab => absurd rfl hab
  | _ :: _, 0, _ + 1, _, _ => rfl
  | _ :: _, _ + 1, 0, _, _ => rfl
  | _ :: t, a + 1, b + 1, m, hab =>
    Heap.read_write_ne t a b m (fun he => hab (congrArg Nat.succ he))

/-- Equal map objects give equal get, len and iter observations. -/
lemma Heap.sameAt_of_read_eq {K V : Type} [DecidableEq K] {h1 h2 : Heap K V} {r : Nat}
    (h : Heap.read h1 r = Heap.read h2 r) : Heap.sameAt h1 h2 r := by
  unfold Heap.sameAt Heap.getAt Heap.lenAt Heap.iterAt
  rw [h]
  exact ⟨fun _ => rfl, rfl, rfl⟩

/-- Inserting a key not present in the map appends a fresh entry. -/
lemma insert_of_not_mem_keys {K V : Type} [DecidableEq K] :
    ∀ (m : ConcurrentMap K V) (k : K) (v : V), k ∉ m.map Prod.fst →
      ConcurrentMap.insert m k v = m ++ [(k, v)]
  | [], _, _, _ => rfl
  | (k', v') :: m, k, v, hk => by
    simp only [List.map_cons, List.mem_cons] at hk
    push_neg at hk
    unfold ConcurrentMap.insert
    rw [if_neg (fun he => hk.1 he.symm)]
    rw [insert_of_not_mem_keys m k v hk.2]
    rfl

/-- Folding insert over pairwise-distinct keys none of which is already
present appends exactly one entry per key. -/
lemma foldl_insert_of_nodup {K V : Type} [DecidableEq K] (f : K → V) :
    ∀ (ks : List K) (m : ConcurrentMap K V), ks.Nodup →
      (∀ k ∈ ks, k ∉ m.map Prod.fst) →
      ks.foldl (fun acc k => ConcurrentMap.insert acc k (f k)) m
        = m ++ ks.map fun k => (k, f k)
  | [], m, _, _ => by simp
  | k :: t, m, hnd, hdisj => by
    have hk : k ∉ m.map Prod.fst := hdisj k (List.mem_cons_self k t)
    have hnd' := List.nodup_cons.mp hnd
    have hdisj' : ∀ k' ∈ t, k' ∉ (m ++ [(k, f k)]).map Prod.fst := by
      intro k' hk'
      simp only [List.map_append, List.map_cons, List.map_nil, List.mem_append,
        List.mem_cons, List.not_mem_nil]
      push_neg
      exact ⟨hdisj k' (List.mem_cons_of_mem _ hk'),
        fun he => (hnd'.1 (he ▸ hk')).elim, fun hf => hf⟩
    rw [List.foldl_cons, insert_of_not_mem_keys m k (f k) hk,
      foldl_insert_of_nodup f t (m ++ [(k, f k)]) hnd'.2 hdisj']
    simp

/-- Removing every inserted key in turn leaves the empty map. -/
lemma foldl_remove_map {K V : Type} [DecidableEq K] (f : K → V) :
    ∀ ks : List K,
      ks.foldl (fun m k => (ConcurrentMap.remove m k).2) (ks.map fun k => (k, f k)) = []
  | [] => rfl
  | k :: t => by
    have hstep : ConcurrentMap.remove ((k, f k) :: t.map fun k => (k, f k)) k
        = (some (f k), t.map fun k => (k, f k)) := by
      unfold ConcurrentMap.remove
      simp
    rw [List.map_cons, List.foldl_cons, hstep]
    exact foldl_remove_map f t

/-- Closed form of a sequence of write_body calls: only the writer's private
body buffer grows (by the concatenated chunks, in order); the cache state is
returned untouched. -/
lemma writeBody_foldl (w : InMemoryWriter) (s : CacheState) :
    ∀ chunks : List (List Nat),
      chunks.foldl (fun p c => InMemoryWriter.write_body p.1 p.2 c) (w, s)
        = ({ w with response :=
              { w.response with body := w.response.body ++ chunks.flatten } }, s)
  | [] => by simp
  | c :: t => by
    rw [List.foldl_cons]
    show (t.foldl (fun p c => InMemoryWriter.write_body p.1 p.2 c)
      ({ w with response := { w.response with body := w.response.body ++ c } }, s)) = _
    rw [writeBody_foldl { w with response := { w.response with body := w.response.body ++ c } } s t]
    simp

end Octocrab

namespace Octocrab

/-! Claim theorems. -/

/-- C1: the claim states that after writer(uri, key, headers) accumulates
chunks b1, b2, b3 and is released, load(uri) on the same cache returns the
response with body b1 then b2 then b3 and the headers passed at open time.
The source violates this: InMemoryCache::writer hands the writer deep
copies of the cache's maps (ConcurrentMap::clone), so the Drop commit lands
in the private copies and the cache itself is unchanged.  Evaluated at a
fresh cache, uri "u", key "k", headers [("etag","v1")] and chunks [1], [2],
[3]: load returns none, while the writer's private map copy holds exactly
the response the claim expects. -/
theorem C1_writer_commit_lost :
    (let s0 : CacheState := ⟨[], []⟩
     let pc := InMemoryCache.new s0
     let pw := InMemoryCache.writer pc.1 "u" "k" [("etag", "v1")] pc.2
     let p1 := InMemoryWriter.write_body pw.1 pw.2 [1]
     let p2 := InMemoryWriter.write_body p1.1 p1.2 [2]
     let p3 := InMemoryWriter.write_body p2.1 p2.2 [3]
     let s2 := InMemoryWriter.drop p3.1 p3.2
     (InMemoryCache.load pc.1 s2 "u", Heap.getAt s2.respHeap pw.1.responses "u"))
    = (Option.none, some ⟨[("etag", "v1")], [1, 2, 3]⟩) := by decide

/-- C2 counterexample: the claim says the k-th retry delays
min(2^k, 2^6) * 100 ms with k = original_budget - remaining + 1, so the
very first retry always uses k = 1 (200 ms) regardless of the budget.
With budget Simple(1) and a 503 outcome the source's first retry delays
800 ms, not specBackoffDelay 1 = 200 ms. -/
theorem C2_counterexample :
    (RetryConfig.retry (β := Unit) (.simple 1) (.ok ⟨503, ()⟩)).2 = some 800
    ∧ specBackoffDelay 1 = 200 ∧ (800 : Nat) ≠ 200 := by decide

/-- C2 amended: the retry exponent is the usize subtraction 3 - remaining
(after decrement), with the base hardcoded to 3 rather than derived from
the configured budget.  For budget n with 0 < n ≤ 4 (so the subtraction
does not underflow) a retryable outcome yields delay
2^(min(3 - (n - 1), 6)) * 100 ms; the first retry is 200 ms exactly for
budget 3. -/
theorem C2_backoff_hardcoded_three (β : Type) (n : Nat) (o : Except Nat (Response β))
    (hro : retryableOutcome o = true) (h1 : 0 < n) (h4 : n ≤ 4) :
    RetryConfig.retry (.simple n) o
      = (.simple (n - 1), some (2 ^ Nat.min (3 - (n - 1)) 6 * 100)) := by
  rw [retry_simple_pos n o h1 hro]
  unfold retryDelayMs
  rw [usizeSub_eq_sub (by omega) (by norm_num)]

/-- C2 witness: at budget 3 and a 503 outcome the amended formula yields
the 200 ms first-retry delay. -/
theorem C2_backoff_hardcoded_three_witness :
    RetryConfig.retry (β := Unit) (.simple 3) (.ok ⟨503, ()⟩)
      = (.simple 2, some (2 ^ Nat.min (3 - 2) 6 * 100)) :=
  C2_backoff_hardcoded_three Unit 3 (.ok ⟨503, ()⟩) (by decide) (by decide) (by decide)

/-- C3: with RetryConfig::Simple(3) and a transport that answers 503 on
every attempt, the pipeline performs exactly 4 attempts (1 initial plus 3
retries), the inter-attempt delays are 200 ms, 400 ms, 800 ms in that
order, and the final 503 response is surfaced unchanged (same status, same
body). -/
theorem C3_simple3_always_503 (β : Type) (b : β) :
    runScript (.simple 3) (.ok ⟨503, b⟩) (List.replicate 3 (.ok ⟨503, b⟩))
      = (4, [200, 400, 800], .ok ⟨503, b⟩) := rfl

/-- C4: under RetryConfig::Simple(n) the decision requests a retry (with a
delay) exactly when the outcome is retryable (5xx status, 429, or a
transport error) and n > 0, decrementing n; in every other case it requests
no retry, leaves the budget unchanged, and the driver surfaces the last
outcome unchanged. -/
theorem C4_simple_retry_decision (β : Type) (n : Nat) (o : Except Nat (Response β)) :
    ((RetryConfig.retry (.simple n) o).2.isSome = true
        ↔ (retryableOutcome o = true ∧ 0 < n))
    ∧ (retryableOutcome o = true → 0 < n →
        RetryConfig.retry (.simple n) o = (.simple (n - 1), some (retryDelayMs (n - 1))))
    ∧ (¬(retryableOutcome o = true ∧ 0 < n) →
        RetryConfig.retry (.simple n) o = (.simple n, Option.none))
    ∧ (∀ rest : List (Except Nat (Response β)), ¬(retryableOutcome o = true ∧ 0 < n) →
        runScript (.simple n) o rest = (1, [], o)) := by
  refine ⟨?_, ?_, ?_, ?_⟩
  · by_cases hc : retryableOutcome o = true ∧ 0 < n
    · rw [retry_simple_pos n o hc.2 hc.1]
      exact ⟨fun _ => hc, fun _ => rfl⟩
    · rw [retry_simple_stop n o hc]
      exact ⟨fun h => by simp at h, fun hp => absurd hp hc⟩
  · intro hro hn
    exact retry_simple_pos n o hn hro
  · exact retry_simple_stop n o
  · intro rest hc
    exact runScript_stop _ o rest (by rw [retry_simple_stop n o hc])

/-- C4 witness: at n = 3 and a 503 outcome the decision retries with the
computed delay and budget 2. -/
theorem C4_simple_retry_decision_witness :
    RetryConfig.retry (β := Unit) (.simple 3) (.ok ⟨503, ()⟩)
      = (.simple 2, some (retryDelayMs 2)) :=
  (C4_simple_retry_decision Unit 3 (.ok ⟨503, ()⟩)).2.1 (by decide) (by decide)

/-- C5: RetryConfig::None never requests a delay or a second attempt for
any outcome (the driver performs exactly the one initial attempt and
surfaces its outcome unchanged), and its clone_request never produces a
duplicate request. -/
theorem C5_none_never_retries (β : Type) (o : Except Nat (Response β))
    (rest : List (Except Nat (Response β))) (req : Request) :
    RetryConfig.retry RetryConfig.none o = (RetryConfig.none, Option.none)
    ∧ RetryConfig.clone_request RetryConfig.none req = Option.none
    ∧ runScript RetryConfig.none o rest = (1, [], o) :=
  ⟨rfl, rfl, runScript_stop RetryConfig.none o rest rfl⟩

/-- C6: under a retrying config, clone_request succeeds exactly when the
body duplicates: if try_clone fails (streaming one-shot body) it returns
none, so no retry of that request can be issued; if try_clone succeeds it
returns an independent request with the same uri, method, version and
headers as the original and the duplicated body. -/
theorem C6_clone_request_body (n : Nat) (req : Request) :
    (req.body.try_clone = Option.none →
      RetryConfig.clone_request (.simple n) req = Option.none)
    ∧ (∀ b : OctoBody, req.body.try_clone = some b →
        RetryConfig.clone_request (.simple n) req
          = some { uri := req.uri, method := req.method, version := req.version,
                   headers := req.headers, body := b }) := by
  constructor
  · intro h
    simp only [RetryConfig.clone_request, h]
  · intro b hb
    simp only [RetryConfig.clone_request, hb]

/-- C6 witness: a streaming body declines duplication; a buffered body
duplicates into an equal request. -/
theorem C6_clone_request_body_witness :
    RetryConfig.clone_request (.simple 3) ⟨"u", "GET", 11, [("accept", "json")], .streaming⟩
      = Option.none
    ∧ RetryConfig.clone_request (.simple 3) ⟨"u", "GET", 11, [("accept", "json")], .buffered [7]⟩
      = some ⟨"u", "GET", 11, [("accept", "json")], .buffered [7]⟩ :=
  ⟨(C6_clone_request_body 3 ⟨"u", "GET", 11, [("accept", "json")], .streaming⟩).1 rfl,
   (C6_clone_request_body 3 ⟨"u", "GET", 11, [("accept", "json")], .buffered [7]⟩).2
     (.buffered [7]) rfl⟩

end Octocrab

namespace Octocrab

/-- C7: ConcurrentMap::clone produces an independent deep copy: the clone
is a distinct map object, and insert, remove or clear on either the clone
or the original leaves the get, len and iter results of the other
unchanged. -/
theorem C7_clone_deep_independent (K V : Type) [DecidableEq K]
    (h : Heap K V) (r : Nat) (hr : r < h.length) :
    (Heap.cloneAt h r).1 ≠ r
    ∧ (∀ (k : K) (v : V),
        Heap.sameAt (Heap.insertAt (Heap.cloneAt h r).2 (Heap.cloneAt h r).1 k v)
          (Heap.cloneAt h r).2 r)
    ∧ (∀ k : K,
        Heap.sameAt (Heap.removeAt (Heap.cloneAt h r).2 (Heap.cloneAt h r).1 k)
          (Heap.cloneAt h r).2 r)
    ∧ Heap.sameAt (Heap.clearAt (Heap.cloneAt h r).2 (Heap.cloneAt h r).1)
        (Heap.cloneAt h r).2 r
    ∧ (∀ (k : K) (v : V),
        Heap.sameAt (Heap.insertAt (Heap.cloneAt h r).2 r k v)
          (Heap.cloneAt h r).2 (Heap.cloneAt h r).1)
    ∧ (∀ k : K,
        Heap.sameAt (Heap.removeAt (Heap.cloneAt h r).2 r k)
          (Heap.cloneAt h r).2 (Heap.cloneAt h r).1)
    ∧ Heap.sameAt (Heap.clearAt (Heap.cloneAt h r).2 r)
        (Heap.cloneAt h r).2 (Heap.cloneAt h r).1 := by
  have hne : (Heap.cloneAt h r).1 ≠ r := ne_of_gt hr
  refine ⟨hne, ?_, ?_, ?_, ?_, ?_, ?_⟩
  · intro k v
    exact Heap.sameAt_of_read_eq (Heap.read_write_ne _ _ _ _ hne)
  · intro k
    exact Heap.sameAt_of_read_eq (Heap.read_write_ne _ _ _ _ hne)
  · exact Heap.sameAt_of_read_eq (Heap.read_write_ne _ _ _ _ hne)
  · intro k v
    exact Heap.sameAt_of_read_eq (Heap.read_write_ne _ _ _ _ hne.symm)
  · intro k
    exact Heap.sameAt_of_read_eq (Heap.read_write_ne _ _ _ _ hne.symm)
  · exact Heap.sameAt_of_read_eq (Heap.read_write_ne _ _ _ _ hne.symm)

/-- C7 witness: cloning the single live map of a one-map heap yields a
fresh handle distinct from the original. -/
theorem C7_clone_deep_independent_witness :
    (Heap.cloneAt (K := String) (V := Nat) [[("a", 1)]] 0).1 ≠ 0 :=
  (C7_clone_deep_independent String Nat [[("a", 1)]] 0 (by decide)).1

/-- C8: inserting pairwise-distinct keys into an empty ConcurrentMap makes
len return their number; subsequently removing all of them makes is_empty
return true. -/
theorem C8_insert_remove_roundtrip (K V : Type) [DecidableEq K]
    (ks : List K) (f : K → V) (hnd : ks.Nodup) :
    ConcurrentMap.len (ks.foldl (fun m k => ConcurrentMap.insert m k (f k)) []) = ks.length
    ∧ ConcurrentMap.is_empty
        (ks.foldl (fun m k => (ConcurrentMap.remove m k).2)
          (ks.foldl (fun m k => ConcurrentMap.insert m k (f k)) [])) = true := by
  have hins : ks.foldl (fun m k => ConcurrentMap.insert m k (f k)) ([] : ConcurrentMap K V)
      = ks.map fun k => (k, f k) := by
    have h0 : ∀ k ∈ ks, k ∉ ([] : ConcurrentMap K V).map Prod.fst := by
      intro k _
      simp
    simpa using foldl_insert_of_nodup f ks [] hnd h0
  refine ⟨?_, ?_⟩
  · rw [hins]
    simp [ConcurrentMap.len]
  · rw [hins, foldl_remove_map f ks]
    rfl

/-- C8 witness: three distinct string keys give len 3, and removing them
all empties the map. -/
theorem C8_insert_remove_roundtrip_witness :
    ConcurrentMap.len ((["a", "b", "c"] : List String).foldl
        (fun m k => ConcurrentMap.insert m k (0 : Nat)) []) = 3
    ∧ ConcurrentMap.is_empty ((["a", "b", "c"] : List String).foldl
        (fun m k => (ConcurrentMap.remove m k).2)
        ((["a", "b", "c"] : List String).foldl
          (fun m k => ConcurrentMap.insert m k (0 : Nat)) [])) = true :=
  C8_insert_remove_roundtrip String Nat ["a", "b", "c"] (fun _ => 0) (by decide)

/-- C9: the backoff exponent is the unsigned subtraction 3 - remaining
(after decrement), not a function of the configured budget: on the first
retry of Simple(n) the decremented counter is n - 1, the subtraction
underflows exactly when n ≥ 5 (so it is well-defined only for n ≤ 4), and
in release (wrapping) semantics the underflowed exponent saturates the
min(·, 6) cap, giving a 6400 ms delay. -/
theorem C9_attempt_counter_underflow (β : Type) (n : Nat) (o : Except Nat (Response β))
    (hro : retryableOutcome o = true) (h1 : 1 ≤ n) :
    (RetryConfig.retry (.simple n) o).1 = .simple (n - 1)
    ∧ (usizeSubUnderflows 3 (n - 1) ↔ 5 ≤ n)
    ∧ (5 ≤ n → n ≤ 2 ^ 64 - 3 →
        (RetryConfig.retry (.simple n) o).2 = some (2 ^ 6 * 100)) := by
  have hpos := retry_simple_pos n o h1 hro
  refine ⟨by rw [hpos], ?_, ?_⟩
  · unfold usizeSubUnderflows
    omega
  · intro h5 hbound
    rw [hpos]
    have hdel : retryDelayMs (n - 1) = 2 ^ 6 * 100 := by
      unfold retryDelayMs usizeSub
      have hm : (n - 1) % 2 ^ 64 = n - 1 := Nat.mod_eq_of_lt (by omega)
      rw [hm]
      have hA : (3 + (2 ^ 64 - (n - 1))) % 2 ^ 64 = 3 + (2 ^ 64 - (n - 1)) :=
        Nat.mod_eq_of_lt (by omega)
      rw [hA]
      have h6 : (3 + (2 ^ 64 - (n - 1))).min 6 = 6 := by
        unfold Nat.min
        exact inf_eq_right.mpr (by omega)
      rw [h6]
    rw [hdel]

/-- C9 witness: budget 5 on a transport error retries with the wrapped,
capped 6400 ms delay. -/
theorem C9_attempt_counter_underflow_witness :
    (RetryConfig.retry (β := Unit) (.simple 5) (.error 0)).2 = some (2 ^ 6 * 100) :=
  (C9_attempt_counter_underflow Unit 5 (.error 0) (by decide) (by decide)).2.2
    (by decide) (by decide)

/-- C10: write_body appends each chunk only to the writer's private
in-progress response buffer (headers untouched) and leaves the cache state
exactly as it was, so try_hit and load on every uri of every cache are
unchanged by any number of write_body calls before the writer is
dropped. -/
theorem C10_write_body_frame (w : InMemoryWriter) (s : CacheState)
    (chunks : List (List Nat)) :
    (chunks.foldl (fun p ch => InMemoryWriter.write_body p.1 p.2 ch) (w, s)).2 = s
    ∧ (∀ (c : InMemoryCache) (u : Uri),
        InMemoryCache.try_hit c
            (chunks.foldl (fun p ch => InMemoryWriter.write_body p.1 p.2 ch) (w, s)).2 u
          = InMemoryCache.try_hit c s u
        ∧ InMemoryCache.load c
            (chunks.foldl (fun p ch => InMemoryWriter.write_body p.1 p.2 ch) (w, s)).2 u
          = InMemoryCache.load c s u)
    ∧ (chunks.foldl (fun p ch => InMemoryWriter.write_body p.1 p.2 ch) (w, s)).1.response.body
        = w.response.body ++ chunks.flatten
    ∧ (chunks.foldl (fun p ch => InMemoryWriter.write_body p.1 p.2 ch) (w, s)).1.response.headers
        = w.response.headers := by
  rw [writeBody_foldl w s chunks]
  exact ⟨rfl, fun c u => ⟨rfl, rfl⟩, rfl, rfl⟩

end Octocrab
